import Mathlib

/-!
Verification development for a credential-scoped HTTP facade over a vector
database API (control plane + per-index data plane).  The definitions below
are a shallow embedding of `src/client.ts` and the query tool handler of
`src/tools/imports.ts`: JavaScript `Map` becomes an association list,
JavaScript truthiness and `parseInt` are modelled explicitly, network I/O
(`fetch`, the describe round-trip) is passed in as explicit oracle
parameters, and `JSON.parse` outcomes are carried alongside body text.
-/

namespace PineconeFacade

/-- JSON value as produced by the platform `JSON.parse`.  Numeric payloads are
modelled as integers; the embedded operations only inspect string fields. -/
inductive Json where
  | null : Json
  | bool (b : Bool) : Json
  | num (n : Int) : Json
  | str (s : String) : Json
  | arr (elems : List Json) : Json
  | obj (fields : List (String × Json)) : Json

/-- JavaScript truthiness of a JSON value: `null`, `false`, `0`, and the empty
string are falsy; every array and object is truthy. -/
def jsTruthy : Json → Bool
  | .null => false
  | .bool b => b
  | .num n => n != 0
  | .str s => !s.isEmpty
  | .arr _ => true
  | .obj _ => true

/-- Truthiness of a `string | undefined` JavaScript value (`none` models
`undefined`): truthy exactly when it is a non-empty string. -/
def jsTruthyStrOpt : Option String → Bool
  | none => false
  | some s => !s.isEmpty

/-- Digits-to-number accumulator used by the `parseInt` model. -/
def digitsToNat (ds : List Char) : Nat :=
  ds.foldl (fun a c => a * 10 + (c.toNat - Char.toNat '0')) 0

/-- Model of JavaScript `parseInt(s, 10)`: skip leading whitespace, read an
optional sign and then a maximal run of decimal digits; `none` models `NaN`
(no digits found). -/
def jsParseIntDec (s : String) : Option Int :=
  let cs := s.toList.dropWhile Char.isWhitespace
  let signAndRest : Int × List Char :=
    match cs with
    | '-' :: r => (-1, r)
    | '+' :: r => (1, r)
    | r => (1, r)
  let ds := signAndRest.2.takeWhile Char.isDigit
  if ds.isEmpty then none else some (signAndRest.1 * (digitsToNat ds : Int))

/-- Lookup in an association list, modelling `Map.prototype.get` (with `none`
for `undefined`). -/
def alistGet {β : Type} : List (String × β) → String → Option β
  | [], _ => none
  | (k', v) :: rest, k => if k' = k then some v else alistGet rest k

/-- Insert-or-replace in an association list, modelling `Map.prototype.set`. -/
def alistSet {β : Type} : List (String × β) → String → β → List (String × β)
  | [], k, v => [(k, v)]
  | (k', v') :: rest, k, v =>
      if k' = k then (k, v) :: rest else (k', v') :: alistSet rest k v

/-- Removal from an association list, modelling `Map.prototype.delete`. -/
def alistDelete {β : Type} : List (String × β) → String → List (String × β)
  | [], _ => []
  | (k', v') :: rest, k =>
      if k' = k then alistDelete rest k else (k', v') :: alistDelete rest k

theorem alistGet_alistSet_self {β : Type} (m : List (String × β)) (k : String) (v : β) :
    alistGet (alistSet m k v) k = some v := by
  induction m with
  | nil => simp [alistGet, alistSet]
  | cons hd tl ih =>
      obtain ⟨k', v'⟩ := hd
      by_cases h : k' = k
      · simp [alistGet, alistSet, h]
      · simp [alistGet, alistSet, h, ih]

theorem alistGet_alistSet_ne {β : Type} (m : List (String × β)) (k k' : String) (v : β)
    (h : k' ≠ k) : alistGet (alistSet m k v) k' = alistGet m k' := by
  have hk : k ≠ k' := Ne.symm h
  induction m with
  | nil => simp [alistGet, alistSet, hk]
  | cons hd tl ih =>
      obtain ⟨k₀, v₀⟩ := hd
      by_cases h0 : k₀ = k
      · subst h0
        simp [alistGet, alistSet, hk]
      · by_cases h1 : k₀ = k'
        · simp [alistGet, alistSet, h0, h1, h]
        · simp [alistGet, alistSet, h0, h1, ih]

theorem alistGet_alistDelete_self {β : Type} (m : List (String × β)) (k : String) :
    alistGet (alistDelete m k) k = none := by
  induction m with
  | nil => simp [alistGet, alistDelete]
  | cons hd tl ih =>
      obtain ⟨k', v'⟩ := hd
      by_cases h : k' = k
      · simp [alistDelete, h, ih]
      · simp [alistGet, alistDelete, h, ih]

theorem alistGet_alistDelete_ne {β : Type} (m : List (String × β)) (k k' : String)
    (h : k' ≠ k) : alistGet (alistDelete m k) k' = alistGet m k' := by
  have hk : k ≠ k' := Ne.symm h
  induction m with
  | nil => simp [alistDelete]
  | cons hd tl ih =>
      obtain ⟨k₀, v₀⟩ := hd
      by_cases h0 : k₀ = k
      · subst h0
        simp [alistGet, alistDelete, hk, ih]
      · simp [alistGet, alistDelete, h0, ih]

theorem alistSet_idem {β : Type} (m : List (String × β)) (k : String) (v : β) :
    alistSet (alistSet m k v) k v = alistSet m k v := by
  induction m with
  | nil => simp [alistSet]
  | cons hd tl ih =>
      obtain ⟨k', v'⟩ := hd
      by_cases h : k' = k
      · simp [alistSet, h]
      · simp [alistSet, h, ih]

/-- Typed error thrown by the facade.  Modelled from the spec: `utils/errors.ts`
is not among the provided sources, so the error kinds and their payloads follow
§3 (Typed Error taxonomy) of the spec together with the constructor call sites
in `client.ts`.  `retryAfterSeconds = none` models a JavaScript `NaN` delay
(header present but not numeric); the `api` message is a JSON value because the
extracted field need not be a string. -/
inductive PineconeError where
  | authentication (message : String) : PineconeError
  | rateLimit (message : String) (retryAfterSeconds : Option Int) : PineconeError
  | api (message : Json) (status : Nat) : PineconeError

/-- Outcome of one `request` invocation that did not succeed: either a typed
facade error or an unclassified failure (`JSON.parse` throwing on a successful
response body). -/
inductive RequestFailure where
  | typed (e : PineconeError) : RequestFailure
  | unclassified : RequestFailure

/-- Credential context.  Modelled from the spec: `types/env.ts` is not among
the provided sources; §3 of the spec describes one opaque secret attribute, and
`client.ts` checks its presence with `!this.credentials.apiKey`, so the key is
an optional string (`none` models `undefined`). -/
structure TenantCredentials where
  apiKey : Option String

/-- Observable content of one HTTP response.  `bodyJson` carries the outcome of
the platform built-in `JSON.parse` applied to `bodyText` (`none` models a parse
throw); `retryAfterHeader` is `headers.get` on the retry-after header (`none`
models `null`). -/
structure HttpResponse where
  status : Nat
  retryAfterHeader : Option String
  bodyText : String
  bodyJson : Option Json

/-- Fixed API version header value from `client.ts`. -/
def apiVersion : String := "2025-01"

/-- Header construction from `PineconeClientImpl.getAuthHeaders`: a missing or
empty API key throws `AuthenticationError`; otherwise exactly three headers are
returned. -/
def getAuthHeaders (credentials : TenantCredentials) :
    Except PineconeError (List (String × String)) :=
  match credentials.apiKey with
  | none =>
      .error (.authentication "No API key provided. Include X-Pinecone-Api-Key header.")
  | some key =>
      if key.isEmpty then
        .error (.authentication "No API key provided. Include X-Pinecone-Api-Key header.")
      else
        .ok [("Api-Key", key),
             ("Content-Type", "application/json"),
             ("X-Pinecone-Api-Version", apiVersion)]

/-- Retry-after delay from the 429 branch of `PineconeClientImpl.request`:
`retryAfter ? parseInt(retryAfter, 10) : 60`.  A `null` or empty header value
is falsy and yields 60; otherwise the `parseInt` result is used (`none` models
`NaN`). -/
def rateLimitDelay (retryAfter : Option String) : Option Int :=
  match retryAfter with
  | none => some 60
  | some s => if s.isEmpty then some 60 else jsParseIntDec s

/-- Plain property access on a JSON value that is known not to be `null`:
yields the field of an object and `undefined` (`none`) on every other value. -/
def jsPlainMember : Json → String → Option Json
  | .obj fields, k => alistGet fields k
  | _, _ => none

/-- Optional-chain property access `x?.k` on a `Json | undefined` value:
short-circuits to `undefined` when `x` is `undefined` or `null`. -/
def jsOptChainMember (x : Option Json) (k : String) : Option Json :=
  match x with
  | none => none
  | some .null => none
  | some j => jsPlainMember j k

/-- JavaScript `x || y` where `x` is a `Json | undefined` value and `y` the
already-evaluated alternative. -/
def jsOrElse (x : Option Json) (y : Json) : Json :=
  match x with
  | none => y
  | some v => if jsTruthy v then v else y

/-- Error-message extraction from the non-2xx branch of
`PineconeClientImpl.request`:
`message = errorJson.error?.message || errorJson.message || message` inside a
try/catch whose catch keeps the default `API error: {status}`.  The catch is
reached when `JSON.parse` throws (`parsed = none`) or when the parsed body is
`null` (property access on `null` throws). -/
def extractErrorMessage (status : Nat) (parsed : Option Json) : Json :=
  let fallback := Json.str ("API error: " ++ toString status)
  match parsed with
  | none => fallback
  | some .null => fallback
  | some j =>
      jsOrElse (jsOptChainMember (jsPlainMember j "error") "message")
        (jsOrElse (jsPlainMember j "message") fallback)

/-- Model of `Response.ok`: status in the inclusive-exclusive range 200–299. -/
def responseOk (status : Nat) : Bool :=
  decide (200 ≤ status) && decide (status < 300)

/-- Response classification from `PineconeClientImpl.request`, in source
order: 429, then 401/403, then any other non-ok status, then 202/204 (body
never read), then an empty body, then `JSON.parse` of the body (whose throw
propagates unclassified).  `.ok none` models resolving with `undefined`. -/
def classifyResponse (resp : HttpResponse) : Except RequestFailure (Option Json) :=
  if resp.status = 429 then
    .error (.typed (.rateLimit "Rate limit exceeded" (rateLimitDelay resp.retryAfterHeader)))
  else if resp.status = 401 || resp.status = 403 then
    .error (.typed (.authentication "Authentication failed. Check your API key."))
  else if !responseOk resp.status then
    .error (.typed (.api (extractErrorMessage resp.status resp.bodyJson) resp.status))
  else if resp.status = 202 || resp.status = 204 then
    .ok none
  else if resp.bodyText.isEmpty then
    .ok none
  else
    match resp.bodyJson with
    | some j => .ok (some j)
    | none => .error .unclassified

/-- One `PineconeClientImpl.request` invocation: header construction happens
while the `fetch` argument is evaluated, so a missing key throws before any
network call.  The second component counts network calls performed (0 or 1);
`resp` is the response the network would return for this request. -/
def request (credentials : TenantCredentials) (resp : HttpResponse) :
    Except RequestFailure (Option Json) × Nat :=
  match getAuthHeaders credentials with
  | .error e => (.error (.typed e), 0)
  | .ok _ => (classifyResponse resp, 1)

/-- Distance metric of an index, from `types/pinecone.ts`. -/
inductive Metric where
  | cosine : Metric
  | euclidean : Metric
  | dotproduct : Metric

/-- Index descriptor from `types/pinecone.ts` (`IndexModel`).  The deployment
`spec`, `status` and optional tag fields are omitted: the embedded operations
only read `host`. -/
structure IndexModel where
  name : String
  dimension : Nat
  metric : Metric
  host : String

/-- Resolution path of `PineconeClientImpl.getIndexHost` taken when the cached
value is falsy: perform the describe round-trip, store the returned host, and
return it; a describe failure propagates and caches nothing.  The last
component counts describe round-trips (here always 1). -/
def resolveIndexHost (describe : String → Except RequestFailure IndexModel)
    (cache : List (String × String)) (indexName : String) :
    Except RequestFailure String × List (String × String) × Nat :=
  match describe indexName with
  | .error e => (.error e, cache, 1)
  | .ok index => (.ok index.host, alistSet cache indexName index.host, 1)

/-- Model of `PineconeClientImpl.getIndexHost`: `const cached = get(...);
if (cached) return cached;` — the cached value is served only when truthy
(present and non-empty); otherwise the describe round-trip runs.  Returns the
host result, the updated cache, and the number of describe round-trips. -/
def getIndexHost (describe : String → Except RequestFailure IndexModel)
    (cache : List (String × String)) (indexName : String) :
    Except RequestFailure String × List (String × String) × Nat :=
  match alistGet cache indexName with
  | some cached =>
      if cached.isEmpty then resolveIndexHost describe cache indexName
      else (.ok cached, cache, 0)
  | none => resolveIndexHost describe cache indexName

/-- Model of `PineconeClientImpl.deleteIndex`: the control-plane DELETE runs
first (its outcome is `deleteResp`); only on success does control reach
`this.indexHostCache.delete(indexName)`, which happens before the method
returns. -/
def deleteIndex (deleteResp : Except RequestFailure Unit)
    (cache : List (String × String)) (indexName : String) :
    Except RequestFailure Unit × List (String × String) :=
  match deleteResp with
  | .error e => (.error e, cache)
  | .ok _ => (.ok (), alistDelete cache indexName)

/-- Cache-affecting facade operations: a data-plane call (which resolves the
index host) and an index delete. -/
inductive FacadeOp where
  | dataPlaneCall (indexName : String) : FacadeOp
  | deleteIndexCall (indexName : String) : FacadeOp

/-- Cache evolution of one facade operation, with the network behaviour given
by the `describe` and `deleteOutcome` oracles. -/
def stepFacade (describe : String → Except RequestFailure IndexModel)
    (deleteOutcome : String → Except RequestFailure Unit)
    (cache : List (String × String)) : FacadeOp → List (String × String)
  | .dataPlaneCall n => (getIndexHost describe cache n).2.1
  | .deleteIndexCall n => (deleteIndex (deleteOutcome n) cache n).2

/-- Cache reached after a sequence of facade operations on a fresh facade
(the constructor starts with an empty `Map`). -/
def runFacade (describe : String → Except RequestFailure IndexModel)
    (deleteOutcome : String → Except RequestFailure Unit)
    (ops : List FacadeOp) : List (String × String) :=
  ops.foldl (stepFacade describe deleteOutcome) []

/-- Decision taken by the `pinecone_query_vectors` tool handler in
`tools/imports.ts`: either a local error response (no network) or a
`queryVectors` call that goes to the network. -/
inductive QueryHandlerAction (α : Type) where
  | localError (message : String) : QueryHandlerAction α
  | networkQuery (indexName : String) (vector : Option α) (id : Option String)
      (topK : Nat) (nspace : Option String) : QueryHandlerAction α

/-- Model of the `pinecone_query_vectors` handler's dispatch:
`if (!vector && !id) return formatError(new Error('Must provide either vector or id'))`,
else call `client.queryVectors` with both arguments forwarded.  `vector` is an
array-or-undefined (arrays are always truthy), `id` a string-or-undefined. -/
def queryVectorsHandler {α : Type} (indexName : String) (vector : Option α)
    (id : Option String) (topK : Nat) (nspace : Option String) :
    QueryHandlerAction α :=
  if vector.isNone && !jsTruthyStrOpt id then
    .localError "Must provide either vector or id"
  else
    .networkQuery indexName vector id topK nspace

/-- Whether a handler action is a local precondition rejection. -/
def QueryHandlerAction.isLocalReject {α : Type} : QueryHandlerAction α → Bool
  | .localError _ => true
  | .networkQuery _ _ _ _ _ => false

theorem jsParseIntDec_empty : jsParseIntDec "" = none := rfl

/-- C3: a 429 response yields a rate-limit error whose retry-after delay is
the integer value of the Retry-After header when that header is present (and
parses), and 60 when the header is absent. -/
theorem rate_limit_delay_classification (resp : HttpResponse)
    (h : resp.status = 429) :
    ∃ d, classifyResponse resp =
        .error (.typed (.rateLimit "Rate limit exceeded" d)) ∧
      (∀ s v, resp.retryAfterHeader = some s → jsParseIntDec s = some v → d = some v) ∧
      (resp.retryAfterHeader = none → d = some 60) := by
  refine ⟨rateLimitDelay resp.retryAfterHeader, ?_, ?_, ?_⟩
  · simp [classifyResponse, h]
  · intro s v hs hv
    rw [hs]
    by_cases he : s.isEmpty
    · rw [(String.isEmpty_iff s).mp he] at hv
      rw [jsParseIntDec_empty] at hv
      exact absurd hv (by simp)
    · simp [rateLimitDelay, he, hv]
  · intro hn
    simp [rateLimitDelay, hn]

theorem rate_limit_delay_classification_witness :
    classifyResponse ⟨429, some "37", "", none⟩ =
        .error (.typed (.rateLimit "Rate limit exceeded" (some 37))) ∧
      classifyResponse ⟨429, none, "", none⟩ =
        .error (.typed (.rateLimit "Rate limit exceeded" (some 60))) := by
  constructor
  · obtain ⟨d, hcl, hs, _⟩ := rate_limit_delay_classification ⟨429, some "37", "", none⟩ rfl
    have hd : d = some 37 := hs "37" 37 rfl (by decide)
    rw [hd] at hcl
    exact hcl
  · obtain ⟨d, hcl, _, hn⟩ := rate_limit_delay_classification ⟨429, none, "", none⟩ rfl
    have hd : d = some 60 := hn rfl
    rw [hd] at hcl
    exact hcl

/-- C4: a 401 or 403 response yields an authentication error with a fixed
message, independent of the response body. -/
theorem auth_status_fixed_message (resp : HttpResponse)
    (h : resp.status = 401 ∨ resp.status = 403) :
    classifyResponse resp =
      .error (.typed (.authentication "Authentication failed. Check your API key.")) := by
  rcases h with h | h <;> simp [classifyResponse, h]

theorem auth_status_fixed_message_witness :
    classifyResponse
        ⟨401, none, "\x7b\"message\":\"secret body\"\x7d",
          some (.obj [("message", .str "secret body")])⟩ =
      .error (.typed (.authentication "Authentication failed. Check your API key.")) :=
  auth_status_fixed_message _ (Or.inl rfl)

/-- C5: a non-2xx response other than 429/401/403 yields an `ApiError` with
that status and a message taken from the parsed body's nested `error.message`
field first, then the top-level `message` field, falling back to
`API error: {status}` when the body is unparseable or neither field is
present. -/
theorem api_error_message_extraction (resp : HttpResponse)
    (hok : responseOk resp.status = false)
    (h429 : resp.status ≠ 429) (h401 : resp.status ≠ 401) (h403 : resp.status ≠ 403) :
    ∃ m, classifyResponse resp = .error (.typed (.api m resp.status)) ∧
      (resp.bodyJson = none → m = .str ("API error: " ++ toString resp.status)) ∧
      (∀ fs gs s, resp.bodyJson = some (.obj fs) →
        alistGet fs "error" = some (.obj gs) →
        alistGet gs "message" = some (.str s) → s ≠ "" → m = .str s) ∧
      (∀ fs s, resp.bodyJson = some (.obj fs) →
        alistGet fs "error" = none →
        alistGet fs "message" = some (.str s) → s ≠ "" → m = .str s) ∧
      (∀ fs, resp.bodyJson = some (.obj fs) →
        alistGet fs "error" = none →
        alistGet fs "message" = none →
        m = .str ("API error: " ++ toString resp.status)) := by
  refine ⟨extractErrorMessage resp.status resp.bodyJson, ?_, ?_, ?_, ?_, ?_⟩
  · simp [classifyResponse, h429, h401, h403, hok]
  · intro hnone
    simp [extractErrorMessage, hnone]
  · intro fs gs s hb herr hmsg hs
    have hsE : s.isEmpty = false := by
      rcases h : s.isEmpty with _ | _
      · rfl
      · exact absurd ((String.isEmpty_iff s).mp h) hs
    simp [extractErrorMessage, hb, jsPlainMember, jsOptChainMember, herr, hmsg,
      jsOrElse, jsTruthy, hsE]
  · intro fs s hb herr hmsg hs
    have hsE : s.isEmpty = false := by
      rcases h : s.isEmpty with _ | _
      · rfl
      · exact absurd ((String.isEmpty_iff s).mp h) hs
    simp [extractErrorMessage, hb, jsPlainMember, jsOptChainMember, herr, hmsg,
      jsOrElse, jsTruthy, hsE]
  · intro fs hb herr hmsg
    simp [extractErrorMessage, hb, jsPlainMember, jsOptChainMember, herr, hmsg,
      jsOrElse]

theorem api_error_message_extraction_witness :
    classifyResponse
        ⟨500, none, "\x7b\"error\":\x7b\"message\":\"boom\"\x7d\x7d",
          some (.obj [("error", .obj [("message", .str "boom")])])⟩ =
      .error (.typed (.api (.str "boom") 500)) := by
  obtain ⟨m, hcl, _, hnested, _, _⟩ :=
    api_error_message_extraction
      ⟨500, none, "\x7b\"error\":\x7b\"message\":\"boom\"\x7d\x7d",
        some (.obj [("error", .obj [("message", .str "boom")])])⟩
      (by decide) (by decide) (by decide) (by decide)
  have hm : m = .str "boom" :=
    hnested [("error", .obj [("message", .str "boom")])] [("message", .str "boom")]
      "boom" rfl rfl rfl (by decide)
  rw [hm] at hcl
  exact hcl

/-- C6: a 202 or 204 response succeeds with an undefined payload without the
body being parsed, and so does any other 2xx response whose body is empty. -/
theorem empty_body_success (resp : HttpResponse) :
    (resp.status = 202 ∨ resp.status = 204 → classifyResponse resp = .ok none) ∧
    (responseOk resp.status = true → resp.bodyText = "" →
      classifyResponse resp = .ok none) := by
  constructor
  · intro h
    rcases h with h | h <;> simp [classifyResponse, h, responseOk]
  · intro hok hbody
    have hrange : 200 ≤ resp.status ∧ resp.status < 300 := by
      simpa [responseOk] using hok
    have h429 : resp.status ≠ 429 := by omega
    have h401 : resp.status ≠ 401 := by omega
    have h403 : resp.status ≠ 403 := by omega
    by_cases h2 : resp.status = 202 || resp.status = 204
    · simp [classifyResponse, h429, h401, h403, hok, h2]
    · have hE : ("" : String).isEmpty = true := rfl
      simp [classifyResponse, h429, h401, h403, hok, h2, hbody, hE]

theorem empty_body_success_witness :
    classifyResponse ⟨202, none, "", none⟩ = .ok none ∧
      classifyResponse ⟨200, none, "", none⟩ = .ok none :=
  ⟨(empty_body_success ⟨202, none, "", none⟩).1 (Or.inl rfl),
   (empty_body_success ⟨200, none, "", none⟩).2 rfl rfl⟩

/-- C7: with no API key every operation fails with an authentication error and
zero network calls; with a key present the facade attaches exactly three
headers: the API key, a fixed content type, and the fixed API version. -/
theorem auth_precondition_and_headers (credentials : TenantCredentials)
    (resp : HttpResponse) :
    (jsTruthyStrOpt credentials.apiKey = false →
      request credentials resp =
        (.error (.typed (.authentication
          "No API key provided. Include X-Pinecone-Api-Key header.")), 0)) ∧
    (∀ key, credentials.apiKey = some key → key ≠ "" →
      getAuthHeaders credentials = .ok
        [("Api-Key", key), ("Content-Type", "application/json"),
         ("X-Pinecone-Api-Version", "2025-01")]) := by
  constructor
  · intro hfalsy
    match hc : credentials.apiKey with
    | none => simp [request, getAuthHeaders, hc]
    | some key =>
        have hE : key.isEmpty = true := by
          have := hfalsy
          rw [hc] at this
          simpa [jsTruthyStrOpt] using this
        simp [request, getAuthHeaders, hc, hE]
  · intro key hc hkey
    have hE : key.isEmpty = false := by
      rcases h : key.isEmpty with _ | _
      · rfl
      · exact absurd ((String.isEmpty_iff key).mp h) hkey
    simp [getAuthHeaders, hc, hE, apiVersion]

theorem auth_precondition_and_headers_witness :
    request ⟨none⟩ ⟨200, none, "", none⟩ =
        (.error (.typed (.authentication
          "No API key provided. Include X-Pinecone-Api-Key header.")), 0) ∧
      getAuthHeaders ⟨some "sk-test"⟩ = .ok
        [("Api-Key", "sk-test"), ("Content-Type", "application/json"),
         ("X-Pinecone-Api-Version", "2025-01")] :=
  ⟨(auth_precondition_and_headers ⟨none⟩ ⟨200, none, "", none⟩).1 rfl,
   (auth_precondition_and_headers ⟨some "sk-test"⟩ ⟨200, none, "", none⟩).2
     "sk-test" rfl (by decide)⟩

/-- Concrete describe oracle answering every name with a fixed non-empty
host. -/
def describeHostExample : String → Except RequestFailure IndexModel :=
  fun _ => .ok ⟨"idx", 3, .cosine, "h.example"⟩

/-- Concrete describe oracle answering every name with an empty host
string. -/
def describeEmptyHost : String → Except RequestFailure IndexModel :=
  fun _ => .ok ⟨"idx", 3, .cosine, ""⟩

/-- The updated cache of `getIndexHost` is either unchanged or extended with
the host of a successful describe for the requested name. -/
theorem getIndexHost_cache_cases
    (describe : String → Except RequestFailure IndexModel)
    (cache : List (String × String)) (indexName : String) :
    (getIndexHost describe cache indexName).2.1 = cache ∨
    ∃ index, describe indexName = .ok index ∧
      (getIndexHost describe cache indexName).2.1 =
        alistSet cache indexName index.host := by
  unfold getIndexHost resolveIndexHost
  rcases hg : alistGet cache indexName with _ | s
  · rcases hd : describe indexName with e | index
    · left; simp [hd]
    · right; exact ⟨index, rfl, by simp [hd]⟩
  · by_cases he : s.isEmpty
    · rcases hd : describe indexName with e | index
      · left; simp [he, hd]
      · right; exact ⟨index, rfl, by simp [he, hd]⟩
    · left; simp [he]

/-- Every entry of a cache reachable from the empty cache records the host of
a successful describe for its key. -/
def cacheConsistent (describe : String → Except RequestFailure IndexModel)
    (cache : List (String × String)) : Prop :=
  ∀ n h, alistGet cache n = some h → ∃ index, describe n = .ok index ∧ index.host = h

theorem stepFacade_preserves_consistent
    (describe : String → Except RequestFailure IndexModel)
    (deleteOutcome : String → Except RequestFailure Unit)
    (cache : List (String × String)) (op : FacadeOp)
    (hI : cacheConsistent describe cache) :
    cacheConsistent describe (stepFacade describe deleteOutcome cache op) := by
  cases op with
  | dataPlaneCall m =>
      intro n h hget
      rcases getIndexHost_cache_cases describe cache m with hsame | ⟨index, hd, hset⟩
      · rw [stepFacade, hsame] at hget
        exact hI n h hget
      · rw [stepFacade, hset] at hget
        by_cases hn : n = m
        · subst hn
          rw [alistGet_alistSet_self] at hget
          exact ⟨index, hd, Option.some.inj hget⟩
        · rw [alistGet_alistSet_ne _ _ _ _ hn] at hget
          exact hI n h hget
  | deleteIndexCall m =>
      intro n h hget
      rcases hdel : deleteOutcome m with e | u
      · simp only [stepFacade, deleteIndex, hdel] at hget
        exact hI n h hget
      · simp only [stepFacade, deleteIndex, hdel] at hget
        by_cases hn : n = m
        · subst hn
          rw [alistGet_alistDelete_self] at hget
          cases hget
        · rw [alistGet_alistDelete_ne _ _ _ hn] at hget
          exact hI n h hget

theorem runFacade_consistent
    (describe : String → Except RequestFailure IndexModel)
    (deleteOutcome : String → Except RequestFailure Unit)
    (ops : List FacadeOp) :
    cacheConsistent describe (runFacade describe deleteOutcome ops) := by
  have hgen : ∀ (l : List FacadeOp) (c : List (String × String)),
      cacheConsistent describe c →
      cacheConsistent describe (l.foldl (stepFacade describe deleteOutcome) c) := by
    intro l
    induction l with
    | nil => intro c hc; exact hc
    | cons hd tl ih =>
        intro c hc
        exact ih _ (stepFacade_preserves_consistent describe deleteOutcome c hd hc)
  exact hgen ops [] (by intro n h hget; cases hget)

/-- C2: a successful delete evicts the cache entry before returning, the next
data-plane resolution performs the describe round-trip again, reachable cache
entries always stem from a successful describe, and data-plane calls never
remove entries (so removal happens exactly at deletion). -/
theorem delete_evicts_cache
    (describe : String → Except RequestFailure IndexModel)
    (deleteOutcome : String → Except RequestFailure Unit)
    (cache : List (String × String)) (indexName : String) :
    ((deleteIndex (.ok ()) cache indexName).1 = .ok () ∧
      alistGet (deleteIndex (.ok ()) cache indexName).2 indexName = none) ∧
    (getIndexHost describe (deleteIndex (.ok ()) cache indexName).2 indexName).2.2 = 1 ∧
    (∀ ops n h, alistGet (runFacade describe deleteOutcome ops) n = some h →
      ∃ index, describe n = .ok index ∧ index.host = h) ∧
    (∀ cache₀ m n, (alistGet cache₀ n).isSome →
      (alistGet (stepFacade describe deleteOutcome cache₀ (.dataPlaneCall m)) n).isSome) := by
  refine ⟨⟨rfl, ?_⟩, ?_, ?_, ?_⟩
  · simp [deleteIndex, alistGet_alistDelete_self]
  · have hnone : alistGet (deleteIndex (.ok ()) cache indexName).2 indexName = none := by
      simp [deleteIndex, alistGet_alistDelete_self]
    rcases hd : describe indexName with e | index <;>
      simp [getIndexHost, hnone, resolveIndexHost, hd]
  · intro ops n h hget
    exact runFacade_consistent describe deleteOutcome ops n h hget
  · intro cache₀ m n hsome
    rcases getIndexHost_cache_cases describe cache₀ m with hsame | ⟨index, _, hset⟩
    · rw [stepFacade, hsame]; exact hsome
    · rw [stepFacade, hset]
      by_cases hn : n = m
      · subst hn; rw [alistGet_alistSet_self]; rfl
      · rw [alistGet_alistSet_ne _ _ _ _ hn]; exact hsome

theorem delete_evicts_cache_witness :
    alistGet (deleteIndex (.ok ()) [("idx", "h.example")] "idx").2 "idx" = none ∧
    (getIndexHost describeHostExample
      (deleteIndex (.ok ()) [("idx", "h.example")] "idx").2 "idx").2.2 = 1 := by
  obtain ⟨⟨_, hgone⟩, hagain, _, _⟩ :=
    delete_evicts_cache describeHostExample (fun _ => .ok ())
      [("idx", "h.example")] "idx"
  exact ⟨hgone, hagain⟩

/-- C9: when the resolution describe call fails on a cache miss, the error is
propagated unchanged and the cache is left unmodified. -/
theorem resolution_failure_propagates
    (describe : String → Except RequestFailure IndexModel)
    (cache : List (String × String)) (indexName : String) (e : RequestFailure)
    (hmiss : alistGet cache indexName = none)
    (hfail : describe indexName = .error e) :
    getIndexHost describe cache indexName = (.error e, cache, 1) := by
  simp [getIndexHost, hmiss, resolveIndexHost, hfail]

theorem resolution_failure_propagates_witness :
    getIndexHost (fun _ => .error (.typed (.api (.str "Index not found") 404))) []
        "missing" =
      (.error (.typed (.api (.str "Index not found") 404)), [], 1) :=
  resolution_failure_propagates
    (fun _ => .error (.typed (.api (.str "Index not found") 404))) [] "missing"
    (.typed (.api (.str "Index not found") 404)) rfl rfl

/-- C10: when the describe call returns an empty host string, that host is
stored in the cache but never served from it — the entry is present yet every
subsequent call performs the describe round-trip again, leaving the cache
unchanged. -/
theorem empty_host_cached_but_not_served
    (describe : String → Except RequestFailure IndexModel)
    (cache : List (String × String)) (indexName : String) (index : IndexModel)
    (hmiss : alistGet cache indexName = none)
    (hdesc : describe indexName = .ok index)
    (hhost : index.host = "") :
    getIndexHost describe cache indexName =
      (.ok "", alistSet cache indexName "", 1) ∧
    alistGet (alistSet cache indexName "") indexName = some "" ∧
    getIndexHost describe (alistSet cache indexName "") indexName =
      (.ok "", alistSet cache indexName "", 1) := by
  refine ⟨?_, alistGet_alistSet_self _ _ _, ?_⟩
  · simp [getIndexHost, hmiss, resolveIndexHost, hdesc, hhost]
  · have hget := alistGet_alistSet_self cache indexName ""
    have hE : ("" : String).isEmpty = true := rfl
    simp [getIndexHost, hget, hE, resolveIndexHost, hdesc, hhost, alistSet_idem]

theorem empty_host_cached_but_not_served_witness :
    getIndexHost describeEmptyHost [] "idx" = (.ok "", [("idx", "")], 1) ∧
    alistGet [("idx", "")] "idx" = some "" ∧
    getIndexHost describeEmptyHost [("idx", "")] "idx" =
      (.ok "", [("idx", "")], 1) := by
  obtain ⟨h1, h2, h3⟩ :=
    empty_host_cached_but_not_served describeEmptyHost [] "idx"
      ⟨"idx", 3, .cosine, ""⟩ rfl rfl rfl
  have hset : alistSet ([] : List (String × String)) "idx" "" = [("idx", "")] := rfl
  rw [hset] at h1 h2 h3
  exact ⟨h1, h2, h3⟩

/-- C1 counterexample: with a describe response carrying an empty host, the
first data-plane resolution performs one describe round-trip and stores the
address, the entry is then present in the cache, yet the second call (with no
intervening delete) performs one describe round-trip again instead of zero. -/
theorem endpoint_cache_counterexample :
    (getIndexHost describeEmptyHost [] "idx").2.2 = 1 ∧
    alistGet (getIndexHost describeEmptyHost [] "idx").2.1 "idx" = some "" ∧
    (getIndexHost describeEmptyHost
      (getIndexHost describeEmptyHost [] "idx").2.1 "idx").2.2 = 1 := by
  refine ⟨rfl, rfl, rfl⟩

/-- C1 amended: a lookup is a hit only when the cached address is non-empty;
on a hit the cached address is used with no describe call, on a true miss the
describe call runs once and its host is stored, and a subsequent call for the
same identifier performs zero describe round-trips provided the resolved host
is non-empty. -/
theorem endpoint_cache_amended
    (describe : String → Except RequestFailure IndexModel)
    (cache : List (String × String)) (indexName : String) :
    (∀ s, alistGet cache indexName = some s → s ≠ "" →
      getIndexHost describe cache indexName = (.ok s, cache, 0)) ∧
    (∀ index, alistGet cache indexName = none → describe indexName = .ok index →
      getIndexHost describe cache indexName =
        (.ok index.host, alistSet cache indexName index.host, 1)) ∧
    (∀ index, alistGet cache indexName = none → describe indexName = .ok index →
      index.host ≠ "" →
      getIndexHost describe (getIndexHost describe cache indexName).2.1 indexName =
        (.ok index.host, alistSet cache indexName index.host, 0)) := by
  refine ⟨?_, ?_, ?_⟩
  · intro s hs hne
    have hE : s.isEmpty = false := by
      rcases h : s.isEmpty with _ | _
      · rfl
      · exact absurd ((String.isEmpty_iff s).mp h) hne
    simp [getIndexHost, hs, hE]
  · intro index hmiss hdesc
    simp [getIndexHost, hmiss, resolveIndexHost, hdesc]
  · intro index hmiss hdesc hne
    have hcache : (getIndexHost describe cache indexName).2.1 =
        alistSet cache indexName index.host := by
      simp [getIndexHost, hmiss, resolveIndexHost, hdesc]
    have hE : index.host.isEmpty = false := by
      rcases h : index.host.isEmpty with _ | _
      · rfl
      · exact absurd ((String.isEmpty_iff index.host).mp h) hne
    rw [hcache]
    simp [getIndexHost, alistGet_alistSet_self, hE]

theorem endpoint_cache_amended_witness :
    getIndexHost describeHostExample [] "idx" =
      (.ok "h.example", [("idx", "h.example")], 1) ∧
    getIndexHost describeHostExample [("idx", "h.example")] "idx" =
      (.ok "h.example", [("idx", "h.example")], 0) := by
  constructor
  · obtain ⟨_, hmiss, _⟩ := endpoint_cache_amended describeHostExample [] "idx"
    simpa using hmiss ⟨"idx", 3, .cosine, "h.example"⟩ rfl rfl
  · obtain ⟨hhit, _, _⟩ :=
      endpoint_cache_amended describeHostExample [("idx", "h.example")] "idx"
    exact hhit "h.example" rfl (by decide)

/-- C8 counterexample: an invocation of the similarity-query handler that
supplies both an explicit vector and a reference id is not rejected locally —
it proceeds to the network query with both arguments forwarded. -/
theorem query_both_args_counterexample :
    queryVectorsHandler "idx" (some [(1 : Int), 2, 3]) (some "vec-1") 5 none =
      .networkQuery "idx" (some [(1 : Int), 2, 3]) (some "vec-1") 5 none ∧
    (queryVectorsHandler "idx" (some [(1 : Int), 2, 3]) (some "vec-1") 5
        none).isLocalReject = false := by
  exact ⟨rfl, rfl⟩

/-- C8 amended: supplying neither a vector nor a (non-empty) reference id is
rejected locally with a message naming the precondition, before any network
request; an invocation that supplies a vector or a truthy id — including one
supplying both — proceeds to the network query. -/
theorem query_precondition_amended {α : Type} (indexName : String)
    (vector : Option α) (id : Option String) (topK : Nat)
    (nspace : Option String) :
    (vector = none → (id = none ∨ id = some "") →
      queryVectorsHandler indexName vector id topK nspace =
        .localError "Must provide either vector or id") ∧
    (vector.isSome = true ∨ jsTruthyStrOpt id = true →
      queryVectorsHandler indexName vector id topK nspace =
        .networkQuery indexName vector id topK nspace) := by
  constructor
  · intro hv hid
    subst hv
    have hE : ("" : String).isEmpty = true := rfl
    rcases hid with hid | hid <;> subst hid <;>
      simp [queryVectorsHandler, jsTruthyStrOpt, hE]
  · intro h
    rcases h with h | h
    · rcases hv : vector with _ | v
      · rw [hv] at h; cases h
      · simp [queryVectorsHandler, hv]
    · simp [queryVectorsHandler, h]

theorem query_precondition_amended_witness :
    queryVectorsHandler (α := List Int) "idx" none none 5 none =
      .localError "Must provide either vector or id" ∧
    queryVectorsHandler "idx" (some [(1 : Int), 2]) none 5 none =
      .networkQuery "idx" (some [(1 : Int), 2]) none 5 none := by
  constructor
  · exact (query_precondition_amended (α := List Int) "idx" none none 5 none).1
      rfl (Or.inl rfl)
  · exact (query_precondition_amended "idx" (some [(1 : Int), 2]) none 5 none).2
      (Or.inl rfl)

end PineconeFacade
